import Mathlib

/-!
# Verification of `tsp_astar_solution.py`

A shallow embedding of the TSP state-space model defined in
`src/tsp_astar_solution.py`, together with theorems settling the claims of
the specification.  City identifiers are strings, states are lists of
cities (Python tuples), and the distance matrix is an association list of
association lists (Python dict of dict).  Fallible Python expressions
(indexing an empty tuple, a missing dictionary key) are embedded as
`Option`-valued functions returning `none` where Python raises.
-/

/-- City identifiers (Python city names such as `"A"`). -/
abbrev City := String

/-- The distance matrix: a dict of dicts, `distances[a][b]` = cost from `a` to `b`. -/
abbrev DistMat := List (City × List (City × Nat))

/-- `distances[a][b]`: two chained dictionary lookups; `none` models a `KeyError`. -/
def dlookup (d : DistMat) (a b : City) : Option Nat :=
  (d.lookup a).bind fun row => row.lookup b

/-- The `TSPProblem` object after a successful `__init__`: the stored city
list, distance dictionary, and the initial state `(cities[0],)`. -/
structure TSPProblem where
  cities : List City
  distances : DistMat
  initial_state : List City
deriving DecidableEq, Repr

/-- `TSPProblem.__init__` (lines 27-35): stores `cities` and `distances` and
sets `initial_state = (cities[0],)`.  Indexing `cities[0]` raises
`IndexError` at once on an empty list, so construction is `none` there. -/
def mkTSPProblem (cities : List City) (distances : DistMat) : Option TSPProblem :=
  match cities with
  | [] => none
  | c :: _ => some ⟨cities, distances, [c]⟩

namespace TSPProblem

/-- `is_goal` (lines 37-41): `len(state) == len(self.cities)`. -/
def is_goal (p : TSPProblem) (s : List City) : Bool :=
  s.length == p.cities.length

/-- `actions` (lines 43-47): `[city for city in self.cities if city not in state]`. -/
def actions (p : TSPProblem) (s : List City) : List City :=
  p.cities.filter fun c => decide (c ∉ s)

/-- `result` (lines 49-53): `state + (action,)` — tuple append, no checks. -/
def result (_p : TSPProblem) (s : List City) (a : City) : List City :=
  s ++ [a]

/-- `cost` (lines 55-60): `state[-1]` (raises on an empty tuple) followed by
the dictionary lookup `self.distances[last_city][action]`. -/
def cost (p : TSPProblem) (s : List City) (a : City) : Option Nat :=
  match s.getLast? with
  | none => none
  | some last => dlookup p.distances last a

end TSPProblem

/-- The generator `self.distances[current_city][city] for city in unvisited`,
fully evaluated: `none` as soon as one lookup raises `KeyError`. -/
def lookupAll (d : DistMat) (cur : City) : List City → Option (List Nat)
  | [] => some []
  | c :: rest =>
    match dlookup d cur c, lookupAll d cur rest with
    | some v, some vs => some (v :: vs)
    | _, _ => none

/-- Python `min` over a materialised value list (`none` models the
`ValueError` on an empty sequence). -/
def minList : List Nat → Option Nat
  | [] => none
  | v :: vs => some (vs.foldl Nat.min v)

namespace TSPProblem

/-- `heuristic` (lines 62-79): the round-trip edge on a goal state, otherwise
the minimum distance from `state[-1]` to an unvisited city, with a fallback
returning-to-start branch when the unvisited list is empty. -/
def heuristic (p : TSPProblem) (s : List City) : Option Nat :=
  if TSPProblem.is_goal p s then
    match s.getLast?, s.head? with
    | some last, some first => dlookup p.distances last first
    | _, _ => none
  else
    match s.getLast? with
    | none => none
    | some cur =>
      let unvisited := p.cities.filter fun c => decide (c ∉ s)
      if unvisited.isEmpty then
        match s.head? with
        | none => none
        | some first => dlookup p.distances cur first
      else
        (lookupAll p.distances cur unvisited).bind minList

end TSPProblem

/-- States reachable from the initial state by repeatedly applying
`result` with actions drawn from `actions`. -/
inductive Reachable (p : TSPProblem) : List City → Prop
  | init : Reachable p p.initial_state
  | step (s : List City) (a : City) : Reachable p s →
      a ∈ TSPProblem.actions p s → Reachable p (TSPProblem.result p s a)

/-- A search-tree node: the state it represents, the accumulated path cost
`g` and the heuristic estimate `h` computed once at creation. -/
structure SNode where
  state : List City
  g : Nat
  h : Nat
deriving DecidableEq, Repr

/-- A frontier entry: a node together with its insertion counter. -/
abbrev FEntry := SNode × Nat

/-- Priority of a node: `f = g + h`. -/
def fval (e : FEntry) : Nat := e.1.g + e.1.h

/-- `a` is dequeued before `b`: strictly smaller `f`, or equal `f` and an
earlier insertion counter (FIFO among ties). -/
def better (a b : FEntry) : Bool :=
  if fval a < fval b then true
  else if fval b < fval a then false
  else Nat.ble a.2 b.2

/-- The frontier entry with minimal `(f, insertion counter)`. -/
def selectMinEntry : List FEntry → Option FEntry
  | [] => none
  | e :: rest =>
    match selectMinEntry rest with
    | none => some e
    | some m => some (if better e m then e else m)

/-- Remove the (unique) entry carrying insertion counter `c`. -/
def removeEntry (c : Nat) : List FEntry → List FEntry
  | [] => []
  | e :: rest => if e.2 == c then rest else e :: removeEntry c rest

/-- Modelled from the spec: one expansion round of the search engine of
section 4.2 (the engine itself is the `astar` routine imported from the
external `simpleai` library and is not under `src/`).  For each action of
the expanded node in order: build the successor state, compute the step
cost (a missing matrix entry is a fatal error, `none`), and when the
successor is new or reached with strictly smaller tentative `g`, create a
child node with a freshly computed heuristic, append it to the frontier
with the next insertion counter and record its `g` in the explored map. -/
def expandChildren (p : TSPProblem) (n : SNode) :
    List City → List FEntry → List (List City × Nat) → Nat →
    Option (List FEntry × List (List City × Nat) × Nat)
  | [], frontier, explored, counter => some (frontier, explored, counter)
  | a :: rest, frontier, explored, counter =>
    let next := TSPProblem.result p n.state a
    match TSPProblem.cost p n.state a with
    | none => none
    | some step =>
      let tg := n.g + step
      let keep :=
        match explored.lookup next with
        | none => true
        | some old => decide (tg < old)
      if keep then
        match TSPProblem.heuristic p next with
        | none => none
        | some hv =>
          expandChildren p n rest (frontier ++ [(⟨next, tg, hv⟩, counter)])
            ((next, tg) :: explored) (counter + 1)
      else
        expandChildren p n rest frontier explored counter

/-- Modelled from the spec: the best-first loop of section 4.2, fuelled to
stay total (the fuel bounds dequeues).  Dequeue the minimal-`f` node (FIFO
among ties); return it if its state is a goal; otherwise expand it and
continue.  An empty frontier (exhaustion) and a fatal model error both
come out as `none`. -/
def astarLoop (p : TSPProblem) :
    Nat → List FEntry → List (List City × Nat) → Nat → Option SNode
  | 0, _, _, _ => none
  | fuel + 1, frontier, explored, counter =>
    match selectMinEntry frontier with
    | none => none
    | some e =>
      let rest := removeEntry e.2 frontier
      if TSPProblem.is_goal p e.1.state then some e.1
      else
        match expandChildren p e.1 (TSPProblem.actions p e.1.state)
            rest explored counter with
        | none => none
        | some (f2, e2, c2) => astarLoop p fuel f2 e2 c2

/-- Modelled from the spec: the `astar` entry point of section 4.2 — root
node from the initial state with `g = 0` and a freshly computed heuristic,
recorded in the explored map with `g = 0`, then the best-first loop. -/
def astar (p : TSPProblem) (fuel : Nat) : Option SNode :=
  match TSPProblem.heuristic p p.initial_state with
  | none => none
  | some h0 =>
    astarLoop p fuel [(⟨p.initial_state, 0, h0⟩, 0)] [(p.initial_state, 0)] 1

/-- The two-city instance of Scenario B: cities `[A, B]`,
`A→B = 7`, `B→A = 7`. -/
def citiesAB : List City := ["A", "B"]

/-- Scenario B distance matrix. -/
def distAB : DistMat := [("A", [("B", 7)]), ("B", [("A", 7)])]

/-- The problem object built from Scenario B's input. -/
def probAB : TSPProblem := ⟨citiesAB, distAB, ["A"]⟩

/-- The `result` operation as the spec words it (section 4.1): append the
action, but fail — a precondition violation — when the action is already
present in the state. -/
def result_spec (s : List City) (a : City) : Option (List City) :=
  if a ∈ s then none else some (s ++ [a])

/-! ## Helper lemmas -/

lemma mem_actions {p : TSPProblem} {s : List City} {c : City} :
    c ∈ TSPProblem.actions p s ↔ c ∈ p.cities ∧ c ∉ s := by
  simp [TSPProblem.actions]

lemma goal_iff {p : TSPProblem} {s : List City} (hcn : p.cities.Nodup)
    (hsn : s.Nodup) (hsub : s ⊆ p.cities) :
    TSPProblem.is_goal p s = true ↔ ∀ c ∈ p.cities, c ∈ s := by
  unfold TSPProblem.is_goal
  rw [beq_iff_eq]
  constructor
  · intro hlen c hc
    have hperm : s.Perm p.cities :=
      (hsn.subperm hsub).perm_of_length_le (le_of_eq hlen.symm)
    exact hperm.symm.subset hc
  · intro hall
    have h1 : s.length ≤ p.cities.length := (hsn.subperm hsub).length_le
    have h2 : p.cities.length ≤ s.length :=
      (hcn.subperm fun c hc => hall c hc).length_le
    exact Nat.le_antisymm h1 h2

lemma actions_eq_nil_iff {p : TSPProblem} {s : List City} (hcn : p.cities.Nodup)
    (hsn : s.Nodup) (hsub : s ⊆ p.cities) :
    TSPProblem.actions p s = [] ↔ TSPProblem.is_goal p s = true := by
  rw [goal_iff hcn hsn hsub]
  constructor
  · intro h c hc
    by_contra hcs
    have hmem : c ∈ TSPProblem.actions p s := mem_actions.mpr ⟨hc, hcs⟩
    simp [h] at hmem
  · intro hall
    refine List.eq_nil_iff_forall_not_mem.mpr fun c hc => ?_
    rcases mem_actions.mp hc with ⟨hc1, hc2⟩
    exact hc2 (hall c hc1)

lemma heuristic_goal {p : TSPProblem} {s : List City} (hne : s ≠ [])
    (hg : TSPProblem.is_goal p s = true) :
    TSPProblem.heuristic p s = dlookup p.distances (s.getLast hne) (s.head hne) := by
  unfold TSPProblem.heuristic
  rw [hg, List.getLast?_eq_getLast s hne, List.head?_eq_head hne]
  simp

lemma heuristic_not_goal {p : TSPProblem} {s : List City} (hne : s ≠ [])
    (hg : TSPProblem.is_goal p s = false)
    (hu : TSPProblem.actions p s ≠ []) :
    TSPProblem.heuristic p s
      = (lookupAll p.distances (s.getLast hne) (TSPProblem.actions p s)).bind minList := by
  unfold TSPProblem.heuristic
  rw [hg, List.getLast?_eq_getLast s hne]
  have hie : (p.cities.filter fun c => decide (c ∉ s)).isEmpty = false := by
    rw [List.isEmpty_eq_false_iff_exists_mem]
    rcases List.exists_mem_of_ne_nil _ hu with ⟨c, hc⟩
    exact ⟨c, hc⟩
  simp only [Bool.false_eq_true, if_false, hie]
  rfl

lemma foldl_min_le_init (vs : List Nat) (v : Nat) : vs.foldl Nat.min v ≤ v := by
  induction vs generalizing v with
  | nil => exact Nat.le_refl v
  | cons c rest ih =>
    exact Nat.le_trans (ih (Nat.min v c)) (Nat.min_le_left v c)

lemma foldl_min_le_mem (vs : List Nat) (v : Nat) :
    ∀ x ∈ vs, vs.foldl Nat.min v ≤ x := by
  induction vs generalizing v with
  | nil => intro x hx; cases hx
  | cons c rest ih =>
    intro x hx
    rcases List.mem_cons.mp hx with rfl | hx
    · exact Nat.le_trans (foldl_min_le_init rest (Nat.min v x)) (Nat.min_le_right v x)
    · exact ih (Nat.min v c) x hx

lemma foldl_min_mem (vs : List Nat) (v : Nat) :
    vs.foldl Nat.min v = v ∨ vs.foldl Nat.min v ∈ vs := by
  induction vs generalizing v with
  | nil => exact Or.inl rfl
  | cons c rest ih =>
    rcases ih (Nat.min v c) with h | h
    · rcases Nat.le_total v c with hvc | hcv
      · left
        simpa [Nat.min_eq_left hvc] using h
      · right
        have hm : Nat.min v c = c := Nat.min_eq_right hcv
        rw [List.foldl_cons, h, hm]
        exact List.mem_cons_self c rest
    · right
      exact List.mem_cons_of_mem c h

lemma minList_spec (l : List Nat) (hl : l ≠ []) :
    ∃ m, minList l = some m ∧ m ∈ l ∧ ∀ x ∈ l, m ≤ x := by
  match l with
  | [] => exact absurd rfl hl
  | v :: vs =>
    refine ⟨vs.foldl Nat.min v, rfl, ?_, ?_⟩
    · rcases foldl_min_mem vs v with h | h
      · rw [h]; exact List.mem_cons_self v vs
      · exact List.mem_cons_of_mem v h
    · intro x hx
      rcases List.mem_cons.mp hx with rfl | hx
      · exact foldl_min_le_init vs x
      · exact foldl_min_le_mem vs v x hx

lemma lookupAll_isSome (d : DistMat) (cur : City) (cs : List City)
    (h : ∀ c ∈ cs, (dlookup d cur c).isSome) :
    ∃ vs, lookupAll d cur cs = some vs ∧ vs.length = cs.length := by
  induction cs with
  | nil => exact ⟨[], rfl, rfl⟩
  | cons c rest ih =>
    rcases ih fun c hc => h c (List.mem_cons_of_mem _ hc) with ⟨vs, hvs, hlen⟩
    rcases Option.isSome_iff_exists.mp (h c (List.mem_cons_self c rest)) with ⟨v, hv⟩
    exact ⟨v :: vs, by simp [lookupAll, hv, hvs], by simp [hlen]⟩

lemma lookupAll_mem_val {d : DistMat} {cur : City} {cs : List City} {vs : List Nat}
    (h : lookupAll d cur cs = some vs) :
    ∀ v ∈ vs, ∃ c, c ∈ cs ∧ dlookup d cur c = some v := by
  induction cs generalizing vs with
  | nil =>
    simp only [lookupAll, Option.some.injEq] at h
    subst h
    intro v hv
    cases hv
  | cons c rest ih =>
    intro v hv
    cases hd : dlookup d cur c with
    | none => rw [lookupAll, hd] at h; cases h
    | some w =>
      cases ht : lookupAll d cur rest with
      | none => rw [lookupAll, hd, ht] at h; cases h
      | some ws =>
        rw [lookupAll, hd, ht, Option.some.injEq] at h
        subst h
        rcases List.mem_cons.mp hv with rfl | hv
        · exact ⟨c, List.mem_cons_self c rest, hd⟩
        · rcases ih ht v hv with ⟨c2, hc2, hl2⟩
          exact ⟨c2, List.mem_cons_of_mem c hc2, hl2⟩

lemma lookupAll_val_mem {d : DistMat} {cur : City} {cs : List City} {vs : List Nat}
    (h : lookupAll d cur cs = some vs) :
    ∀ c ∈ cs, ∃ v, v ∈ vs ∧ dlookup d cur c = some v := by
  induction cs generalizing vs with
  | nil => intro c hc; cases hc
  | cons c rest ih =>
    intro c2 hc2
    cases hd : dlookup d cur c with
    | none => rw [lookupAll, hd] at h; cases h
    | some w =>
      cases ht : lookupAll d cur rest with
      | none => rw [lookupAll, hd, ht] at h; cases h
      | some ws =>
        rw [lookupAll, hd, ht, Option.some.injEq] at h
        subst h
        rcases List.mem_cons.mp hc2 with rfl | hc2
        · exact ⟨w, List.mem_cons_self w ws, hd⟩
        · rcases ih ht c2 hc2 with ⟨v, hv, hl⟩
          exact ⟨v, List.mem_cons_of_mem w hv, hl⟩

/-! ## Claims -/

/-- C1: for a valid state (non-empty, duplicate-free, entries drawn from the
duplicate-free city list), `heuristic` returns the distance-matrix entry from
the last city back to the first city when `is_goal` holds; otherwise —
provided the matrix has an entry from the last city to every unvisited city,
as the claim presupposes — it returns the minimum distance-matrix entry from
the last city to a city of the city list not present in the state. -/
theorem heuristic_round_trip_or_min (p : TSPProblem) (s : List City)
    (hcn : p.cities.Nodup) (hsn : s.Nodup) (hne : s ≠ []) (hsub : s ⊆ p.cities) :
    (TSPProblem.is_goal p s = true →
      TSPProblem.heuristic p s = dlookup p.distances (s.getLast hne) (s.head hne))
    ∧ (TSPProblem.is_goal p s = false →
      (∀ c ∈ p.cities, c ∉ s → (dlookup p.distances (s.getLast hne) c).isSome) →
      ∃ m, TSPProblem.heuristic p s = some m
        ∧ (∃ c, c ∈ p.cities ∧ c ∉ s ∧ dlookup p.distances (s.getLast hne) c = some m)
        ∧ ∀ c ∈ p.cities, c ∉ s →
            ∀ v, dlookup p.distances (s.getLast hne) c = some v → m ≤ v) := by
  constructor
  · exact fun hg => heuristic_goal hne hg
  · intro hg hdom
    have hu : TSPProblem.actions p s ≠ [] := by
      intro h
      rw [actions_eq_nil_iff hcn hsn hsub] at h
      rw [h] at hg
      cases hg
    have hall : ∀ c ∈ TSPProblem.actions p s,
        (dlookup p.distances (s.getLast hne) c).isSome := by
      intro c hc
      rcases mem_actions.mp hc with ⟨h1, h2⟩
      exact hdom c h1 h2
    rcases lookupAll_isSome _ _ _ hall with ⟨vs, hvs, hlen⟩
    have hvs_ne : vs ≠ [] := by
      intro h
      subst h
      exact hu (List.length_eq_zero.mp hlen.symm ▸ rfl)
    rcases minList_spec vs hvs_ne with ⟨m, hm, hmem, hle⟩
    refine ⟨m, ?_, ?_, ?_⟩
    · rw [heuristic_not_goal hne hg hu, hvs]
      simpa using hm
    · rcases lookupAll_mem_val hvs m hmem with ⟨c, hc, hlc⟩
      rcases mem_actions.mp hc with ⟨h1, h2⟩
      exact ⟨c, h1, h2, hlc⟩
    · intro c h1 h2 v hv
      rcases lookupAll_val_mem hvs c (mem_actions.mpr ⟨h1, h2⟩) with ⟨v2, hv2, hl2⟩
      rw [hv] at hl2
      injection hl2 with hh
      rw [← hh] at hv2
      exact hle v hv2

/-- Witness for C1: the goal branch evaluated on the two-city instance at the
full state. -/
theorem heuristic_round_trip_or_min_witness :
    TSPProblem.heuristic probAB ["A", "B"]
      = dlookup probAB.distances ((["A", "B"] : List City).getLast (by decide))
          ((["A", "B"] : List City).head (by decide)) :=
  (heuristic_round_trip_or_min probAB ["A", "B"]
    (by decide) (by decide) (by decide) (by decide)).1 rfl

/-- C2: every state reachable from the initial state of a successfully
constructed problem by repeatedly applying `result` with actions drawn from
`actions` contains no city twice. -/
theorem reachable_states_nodup (cities : List City) (d : DistMat)
    (p : TSPProblem) (hmk : mkTSPProblem cities d = some p) :
    ∀ s, Reachable p s → s.Nodup := by
  have hinit : p.initial_state.Nodup := by
    cases cities with
    | nil => cases hmk
    | cons c rest =>
      simp only [mkTSPProblem, Option.some.injEq] at hmk
      rw [← hmk]
      exact List.nodup_singleton c
  intro s hr
  induction hr with
  | init => exact hinit
  | step s a hr ha ih =>
    rcases mem_actions.mp ha with ⟨_, h2⟩
    unfold TSPProblem.result
    rw [List.nodup_append]
    refine ⟨ih, List.nodup_singleton a, ?_⟩
    intro x hx hxa
    rw [List.mem_singleton] at hxa
    subst hxa
    exact h2 hx

/-- Witness for C2: the state `["A", "B"]` reached in the two-city instance
is duplicate-free. -/
theorem reachable_states_nodup_witness :
    Reachable probAB ["A", "B"] ∧ List.Nodup (["A", "B"] : List City) := by
  have hr : Reachable probAB ["A", "B"] :=
    Reachable.step ["A"] "B" Reachable.init (by decide)
  exact ⟨hr, reachable_states_nodup citiesAB distAB probAB rfl ["A", "B"] hr⟩

/-- C3: on a valid state (duplicate-free, entries drawn from the
duplicate-free city list), `is_goal` is true exactly when every city of the
city list appears in the state. -/
theorem is_goal_iff_all_cities (p : TSPProblem) (s : List City)
    (hcn : p.cities.Nodup) (hsn : s.Nodup) (hsub : s ⊆ p.cities) :
    TSPProblem.is_goal p s = true ↔ ∀ c ∈ p.cities, c ∈ s :=
  goal_iff hcn hsn hsub

/-- Witness for C3: the two-city instance at its full state. -/
theorem is_goal_iff_all_cities_witness :
    TSPProblem.is_goal probAB ["A", "B"] = true :=
  (is_goal_iff_all_cities probAB ["A", "B"]
    (by decide) (by decide) (by decide)).mpr (by decide)

/-- C4: `actions` returns exactly the cities of the city list absent from the
state, and on a valid state it is empty exactly when `is_goal` is true. -/
theorem actions_complement_and_empty_iff_goal (p : TSPProblem) (s : List City)
    (hcn : p.cities.Nodup) (hsn : s.Nodup) (hsub : s ⊆ p.cities) :
    (∀ c, c ∈ TSPProblem.actions p s ↔ (c ∈ p.cities ∧ c ∉ s))
    ∧ (TSPProblem.actions p s = [] ↔ TSPProblem.is_goal p s = true) :=
  ⟨fun _ => mem_actions, actions_eq_nil_iff hcn hsn hsub⟩

/-- Witness for C4: on the two-city instance after visiting only `A`, the
action list contains `B` and is non-empty. -/
theorem actions_complement_and_empty_iff_goal_witness :
    ("B" ∈ TSPProblem.actions probAB ["A"])
    ∧ TSPProblem.actions probAB ["A"] ≠ [] := by
  have h := actions_complement_and_empty_iff_goal probAB ["A"]
    (by decide) (by decide) (by decide)
  exact ⟨(h.1 "B").mpr (by decide), fun he => absurd (h.2.mp he) (by decide)⟩

/-- C5 counterexample: applied to a state already containing the action,
`result` returns the appended state with a duplicate instead of failing,
while the spec's wording demands a precondition failure. -/
theorem result_ignores_duplicate_precondition :
    TSPProblem.result probAB ["A"] "A" = ["A", "A"]
    ∧ result_spec ["A"] "A" = none :=
  ⟨rfl, by decide⟩

/-- C5 amended: `result` returns the state with the action appended for
every state and action, unconditionally — it performs no duplicate check and
does not fail when the action is already present. -/
theorem result_appends_unconditionally (p : TSPProblem) (s : List City) (a : City) :
    TSPProblem.result p s a = s ++ [a]
    ∧ (TSPProblem.result p s a).length = s.length + 1
    ∧ a ∈ TSPProblem.result p s a := by
  refine ⟨rfl, by simp [TSPProblem.result], by simp [TSPProblem.result]⟩

/-- C6: `cost` fails exactly when the state is empty or the matrix lacks the
(last city, action) entry, and otherwise returns that entry. -/
theorem cost_last_lookup (p : TSPProblem) (s : List City) (a : City) :
    (TSPProblem.cost p s a = none ↔
      s = [] ∨ ∃ l, s.getLast? = some l ∧ dlookup p.distances l a = none)
    ∧ ∀ l v, s.getLast? = some l → dlookup p.distances l a = some v →
        TSPProblem.cost p s a = some v := by
  cases s with
  | nil =>
    refine ⟨by simp [TSPProblem.cost], ?_⟩
    intro l v hl _
    cases hl
  | cons c rest =>
    have hne : c :: rest ≠ ([] : List City) := by simp
    have hgl : (c :: rest).getLast? = some ((c :: rest).getLast hne) :=
      List.getLast?_eq_getLast (c :: rest) hne
    constructor
    · rw [TSPProblem.cost, hgl]
      simp [hgl]
    · intro l v hl hv
      rw [TSPProblem.cost, hgl]
      rw [hgl] at hl
      injection hl with hl
      rw [hl]
      exact hv

/-- Witness for C6: the lookup from the last city `A` to `B` in the two-city
instance. -/
theorem cost_last_lookup_witness :
    TSPProblem.cost probAB ["A"] "B" = some 7 :=
  (cost_last_lookup probAB ["A"] "B").2 "A" 7 rfl rfl

/-- C7: on the two-city instance of Scenario B, the search returns a terminal
node whose state is `(A, B)` and whose accumulated path cost is 7. -/
theorem astar_scenarioB :
    ∃ n, astar probAB 10 = some n ∧ n.state = ["A", "B"] ∧ n.g = 7 :=
  ⟨⟨["A", "B"], 7, 7⟩, rfl, rfl, rfl⟩

/-- C8: constructing the problem with an empty city list fails at once (the
`cities[0]` indexing in `__init__` raises), while any non-empty city list
constructs successfully with the one-city initial state. -/
theorem mk_empty_cities_fails :
    (∀ d : DistMat, mkTSPProblem [] d = none)
    ∧ ∀ (c : City) (rest : List City) (d : DistMat),
        ∃ p, mkTSPProblem (c :: rest) d = some p ∧ p.initial_state = [c] :=
  ⟨fun _ => rfl, fun c rest d => ⟨⟨c :: rest, d, [c]⟩, rfl, rfl⟩⟩

/-- C9: `actions` lists the unvisited cities in the relative order of the
city list (it is a sublist of the city list) and contains exactly the cities
absent from the state; as a function of the problem and state it is
deterministic by construction. -/
theorem actions_order_follows_cities (p : TSPProblem) (s : List City) :
    List.Sublist (TSPProblem.actions p s) p.cities
    ∧ ∀ c, c ∈ TSPProblem.actions p s ↔ (c ∈ p.cities ∧ c ∉ s) :=
  ⟨List.filter_sublist p.cities, fun _ => mem_actions⟩

/-- C10: on a valid non-goal state, the unvisited list computed inside
`heuristic` (the same filter `actions` computes) is non-empty, so the
fallback branch returning to the start is unreachable and `heuristic` takes
the minimum over the unvisited lookups. -/
theorem heuristic_fallback_unreachable (p : TSPProblem) (s : List City)
    (hcn : p.cities.Nodup) (hsn : s.Nodup) (hne : s ≠ []) (hsub : s ⊆ p.cities)
    (hg : TSPProblem.is_goal p s = false) :
    TSPProblem.actions p s ≠ []
    ∧ TSPProblem.heuristic p s
      = (lookupAll p.distances (s.getLast hne) (TSPProblem.actions p s)).bind minList := by
  have hu : TSPProblem.actions p s ≠ [] := by
    intro h
    rw [actions_eq_nil_iff hcn hsn hsub] at h
    rw [h] at hg
    cases hg
  exact ⟨hu, heuristic_not_goal hne hg hu⟩

/-- Witness for C10: the two-city instance after visiting only `A`. -/
theorem heuristic_fallback_unreachable_witness :
    TSPProblem.actions probAB ["A"] ≠ []
    ∧ TSPProblem.heuristic probAB ["A"]
      = (lookupAll probAB.distances ((["A"] : List City).getLast (by decide))
          (TSPProblem.actions probAB ["A"])).bind minList :=
  heuristic_fallback_unreachable probAB ["A"]
    (by decide) (by decide) (by decide) (by decide) (by decide)
